import Mathlib

/-!
rollbar-cli: the client's response handling and occurrence extractor.

A shallow embedding of `internal/client/client.go`.

* Go's `interface{}` values, as `encoding/json` produces them and as
  `FormatOccurrenceData` stores them, are the type `Value`.
* `map[string]interface{}` is an association list read by its first matching
  entry (`GoMap.get`); a write replaces the entry of its key (`GoMap.set`).
* A run-time panic is the result `none`: the only operation of the extractor
  that can panic is the slice index `traceChain[0]` (`sliceIndex`).
* The HTTP exchange and `json.Unmarshal` are inputs of the `Get*` functions:
  they receive the outcome of `doRequest` followed by `json.Unmarshal`.
-/

set_option autoImplicit false

namespace Rollbar

/-! ## Values held in an `interface{}` -/

/-- A `float64` held in an `interface{}` (every JSON number decodes to one).
`int neg n` is the float64 whose value is the integer `±n`, for `n < 2^53`,
where every integer is a float64 (`int true 0` is the negative zero).
`other text` is any other float64; the client does nothing with a number but
print it with `%v`, so it is carried as the text `%v` prints for it. -/
inductive Float64 where
  | int (neg : Bool) (n : Nat) (h : n < 9007199254740992)
  | other (text : String)
  deriving DecidableEq

/-- The dynamic values of Go's `interface{}` that occur in the client:
what `json.Unmarshal` stores (`nil`, `bool`, `float64`, `string`,
`[]interface{}`, `map[string]interface{}`) and the `[]string` that
`FormatOccurrenceData` stores under `backtrace`. -/
inductive Value where
  | null
  | bool (b : Bool)
  | num (x : Float64)
  | str (s : String)
  | arr (xs : List Value)
  | obj (m : List (String × Value))
  | strs (xs : List String)

/-- Go's `map[string]interface{}`. -/
abbrev GoMap := List (String × Value)

namespace GoMap

/-- The two-valued map read `v, ok := m[k]`: `none` when `ok` is false. -/
def get : GoMap → String → Option Value
  | [], _ => none
  | (k', v) :: m, k => if k' = k then some v else get m k

/-- The one-valued map read `m[k]`: the zero value `nil` for a missing key. -/
def index (m : GoMap) (k : String) : Value :=
  match get m k with
  | some v => v
  | none => Value.null

/-- The map without the key `k` (`delete(m, k)`). -/
def erase : GoMap → String → GoMap
  | [], _ => []
  | (k', v) :: m, k => if k' = k then erase m k else (k', v) :: erase m k

/-- The map write `m[k] = v`. -/
def set (m : GoMap) (k : String) (v : Value) : GoMap :=
  (k, v) :: erase m k

/-- The keys of the map. -/
def keys (m : GoMap) : List String :=
  m.map Prod.fst

end GoMap

/-- The type assertion `v.(map[string]interface{})` in its comma-ok form. -/
def asMap : Value → Option GoMap
  | Value.obj m => some m
  | _ => none

/-- The type assertion `v.([]interface{})` in its comma-ok form. -/
def asSlice : Value → Option (List Value)
  | Value.arr xs => some xs
  | _ => none

/-- The slice index `xs[i]`, which panics (`none`) when `i` is out of range. -/
def sliceIndex (xs : List Value) (i : Nat) : Option Value :=
  xs.get? i

/-! ## `fmt`'s `%v` -/

/-- The digits of `strconv`'s `decimalSlice`: the digit characters `d`
(`nd` is their number) and the position `dp` of the decimal point. -/
structure decimalSlice where
  d : List Char
  dp : Int

/-- The number of digits `nd` of a `decimalSlice`. -/
def decimalSlice.nd (s : decimalSlice) : Int := s.d.length

/-- The list without its trailing characters `0`. -/
def trimZeros : List Char → List Char
  | [] => []
  | c :: cs =>
    match trimZeros cs with
    | [] => if c = '0' then [] else [c]
    | r => c :: r

/-- The shortest digits that identify the float64 of integer value `n < 2^53`
(`strconv`'s shortest formatting): the decimal digits of `n` without the
trailing zeros, the decimal point after as many places as `n` has digits;
zero has no digit. Below `2^53` two neighbouring float64 are at most 1 apart,
so a shorter numeral, a multiple of 10 other than `n`, is at least 1 away from
`n` and reads back as another float64. -/
def shortestDigits (n : Nat) : decimalSlice :=
  if n = 0 then { d := [], dp := 0 }
  else { d := trimZeros (Nat.toDigits 10 n), dp := (Nat.toDigits 10 n).length }

/-- The digit character of `n < 10` (`byte(n) + '0'`). -/
def digitByte (n : Nat) : Char := Nat.digitChar (n % 10)

/-- The function `fmtE` of `strconv`: `d.ddddde±dd`, `prec` digits after the point. -/
def fmtE (neg : Bool) (s : decimalSlice) (prec : Int) : List Char :=
  let sign := if neg then ['-'] else []
  let first := match s.d with
    | [] => '0'
    | c :: _ => c
  let more :=
    if prec > 0 then
      let m := min s.d.length (prec.toNat + 1)
      let digs := (s.d.take m).drop 1
      '.' :: (digs ++ List.replicate (prec.toNat - digs.length) '0')
    else []
  let exp : Int := if s.d.length = 0 then 0 else s.dp - 1
  let esign := if exp < 0 then '-' else '+'
  let e := exp.natAbs
  let edigs :=
    if e < 10 then ['0', digitByte e]
    else if e < 100 then [digitByte (e / 10), digitByte e]
    else [digitByte (e / 100), digitByte (e / 10), digitByte e]
  sign ++ first :: more ++ 'e' :: esign :: edigs

/-- The function `fmtF` of `strconv`: `ddddd.ddd`, `prec` digits after the point. -/
def fmtF (neg : Bool) (s : decimalSlice) (prec : Int) : List Char :=
  let sign := if neg then ['-'] else []
  let whole :=
    if s.dp > 0 then
      let m := min s.d.length s.dp.toNat
      s.d.take m ++ List.replicate (s.dp.toNat - m) '0'
    else ['0']
  let frac :=
    if prec > 0 then
      '.' :: (List.range prec.toNat).map fun i =>
        let j := s.dp + (i : Int)
        if 0 ≤ j ∧ j < s.d.length then s.d.getD j.toNat '0' else '0'
    else []
  sign ++ whole ++ frac

/-- The `%v` of a float64, `strconv.FormatFloat(x, 'g', -1, 64)`: the shortest
digits, printed in the form `%e` when the decimal exponent `dp - 1` is below -4
or at least `eprec` (6 for the shortest digits), in the form `%f` otherwise. -/
def fmtFloat : Float64 → String
  | Float64.other text => text
  | Float64.int neg n _ =>
    let digs := shortestDigits n
    let eprec : Int := 6
    let exp := digs.dp - 1
    if exp < -4 ∨ exp ≥ eprec then
      String.mk (fmtE neg digs (digs.nd - 1))
    else
      String.mk (fmtF neg digs (max (digs.nd - digs.dp) 0))

/-- The entries of a map as `fmt` prints them: one entry per key (the one a
read finds), the keys in increasing order. -/
def sortedEntries (es : List (String × String)) : List (String × String) :=
  (es.foldr (fun e acc => e :: acc.filter fun p => p.1 ≠ e.1) []).insertionSort
    fun p q => p.1 ≤ q.1

mutual
/-- The `%v` of a value: `<nil>`, `true`, a float64 in the form `%g`, a
string as it is, a slice as `[a b]`, a map as `map[k:v k:v]` by sorted keys. -/
def fmtV : Value → String
  | Value.null => "<nil>"
  | Value.bool b => if b then "true" else "false"
  | Value.num x => fmtFloat x
  | Value.str s => s
  | Value.arr xs => "[" ++ " ".intercalate (fmtVs xs) ++ "]"
  | Value.obj m =>
    "map[" ++ " ".intercalate ((sortedEntries (fmtFields m)).map fun p => p.1 ++ ":" ++ p.2) ++ "]"
  | Value.strs xs => "[" ++ " ".intercalate xs ++ "]"
/-- The `%v` of each element of a slice. -/
def fmtVs : List Value → List String
  | [] => []
  | x :: xs => fmtV x :: fmtVs xs
/-- The `%v` of each value of a map, by key. -/
def fmtFields : List (String × Value) → List (String × String)
  | [] => []
  | (k, v) :: m => (k, fmtV v) :: fmtFields m
end

/-- The result of `fmt.Sprintf("%v:%v in %v", a, b, c)`. -/
def Sprintf3 (a b c : Value) : String :=
  fmtV a ++ ":" ++ fmtV b ++ " in " ++ fmtV c

/-! ## `FormatOccurrenceData` -/

/-- The statement `if v, ok := src[k]; ok { dst[k2] = v }`. -/
def copyFieldAs (src : GoMap) (k k2 : String) (dst : GoMap) : GoMap :=
  match src.get k with
  | some v => dst.set k2 v
  | none => dst

/-- The statement `if v, ok := src[k]; ok { dst[k] = v }`. -/
def copyField (src : GoMap) (k : String) (dst : GoMap) : GoMap :=
  copyFieldAs src k k dst

/-- The body of the loop over the frames (client.go 308-313 and 328-333):
a frame that is a map appends its line to `backtrace`, another frame appends
nothing. -/
def frameStep (backtrace : List String) (f : Value) : List String :=
  match asMap f with
  | some frame =>
    let filename := frame.index "filename"
    let lineno := frame.index "lineno"
    let method := frame.index "method"
    backtrace ++ [Sprintf3 filename lineno method]
  | none => backtrace

/-- The loop `for _, f := range frames` (client.go 307-314 and 327-334). -/
def frameLoop : List Value → List String → List String
  | [], backtrace => backtrace
  | f :: frames, backtrace => frameLoop frames (frameStep backtrace f)

/-- The extraction from one trace object, which the source writes twice with
the same text: for `body["trace"]` (client.go 301-316) and for
`traceChain[0]` (client.go 321-336). -/
def extractTrace (trace : GoMap) (result : GoMap) : GoMap :=
  let result :=
    match asMap (trace.index "exception") with
    | some exc =>
      (result.set "exception_class" (exc.index "class")).set
        "exception_message" (exc.index "message")
    | none => result
  match asSlice (trace.index "frames") with
  | some frames => result.set "backtrace" (Value.strs (frameLoop frames []))
  | none => result

/-- The block for `body["message"]` (client.go 294-298). -/
def extractMessage (body : GoMap) (result : GoMap) : GoMap :=
  match asMap (body.index "message") with
  | some msg => copyFieldAs msg "body" "message" result
  | none => result

/-- The block for `body["trace"]` (client.go 300-317). -/
def extractTraceField (body : GoMap) (result : GoMap) : GoMap :=
  match asMap (body.index "trace") with
  | some trace => extractTrace trace result
  | none => result

/-- The block for `body["trace_chain"]` (client.go 319-338); the index
`traceChain[0]` panics on an empty slice. -/
def extractTraceChain (body : GoMap) (result : GoMap) : Option GoMap :=
  match asSlice (body.index "trace_chain") with
  | some traceChain =>
    if traceChain.length > 0 then
      match sliceIndex traceChain 0 with
      | none => none
      | some first =>
        match asMap first with
        | some trace => some (extractTrace trace result)
        | none => some result
    else some result
  | none => some result

/-- The block `if body, ok := data["body"].(map[string]interface{}); ok`
(client.go 293-339). -/
def extractBody (data : GoMap) (result : GoMap) : Option GoMap :=
  match asMap (data.index "body") with
  | some body =>
    extractTraceChain body (extractTraceField body (extractMessage body result))
  | none => some result

/-- The block for `server` (client.go 342-356). -/
def extractServer (data : GoMap) (result : GoMap) : GoMap :=
  match asMap (data.index "server") with
  | some server =>
    let serverInfo : GoMap := []
    let serverInfo := copyField server "host" serverInfo
    let serverInfo := copyField server "root" serverInfo
    let serverInfo := copyField server "pid" serverInfo
    if serverInfo.length > 0 then result.set "server" (Value.obj serverInfo) else result
  | none => result

/-- The block for `request` (client.go 359-379). -/
def extractRequest (data : GoMap) (result : GoMap) : GoMap :=
  match asMap (data.index "request") with
  | some req =>
    let reqInfo : GoMap := []
    let reqInfo := copyField req "url" reqInfo
    let reqInfo := copyField req "method" reqInfo
    let reqInfo := copyField req "user_ip" reqInfo
    let reqInfo := copyField req "params" reqInfo
    let reqInfo := copyField req "headers" reqInfo
    if reqInfo.length > 0 then result.set "request" (Value.obj reqInfo) else result
  | none => result

/-- The function `FormatOccurrenceData` (client.go 282-382); `none` is a panic. -/
def FormatOccurrenceData (data : GoMap) : Option GoMap :=
  let result : GoMap := []
  let result := copyField data "environment" result
  let result := copyField data "level" result
  match extractBody data result with
  | none => none
  | some result =>
    let result := extractServer data result
    let result := extractRequest data result
    some result

/-! ## The responses of the API and the `Get*` functions -/

/-- The type `Item` (client.go 54-64). -/
structure Item where
  ID : String
  Counter : Int
  Title : String
  Level : String
  Status : String
  Environment : String
  TotalOccurrences : Int
  LastOccurrence : String
  FirstOccurrence : String
  deriving DecidableEq

/-- The anonymous struct of one item in `ItemsResponse.Result.Items`
(client.go 70-80) and in `ItemResponse.Result` (client.go 87-97).
The field `ID` has the type `json.Number`, a string type. -/
structure ItemResult where
  ID : String
  Counter : Int
  Title : String
  Level : String
  Status : String
  Environment : String
  TotalOccurrences : Int
  LastOccurrenceTimestamp : Int
  FirstOccurrenceTimestamp : Int
  deriving DecidableEq

/-- The type `ItemsResponse` (client.go 67-82); `Items` is `Result.Items`. -/
structure ItemsResponse where
  Err : Int
  Items : List ItemResult

/-- The type `ItemResponse` (client.go 85-98). -/
structure ItemResponse where
  Err : Int
  Result : ItemResult

/-- The type `Occurrence` (client.go 101-106). -/
structure Occurrence where
  ID : Int
  ItemID : String
  Timestamp : String
  Data : GoMap

/-- The anonymous struct of one occurrence in
`OccurrencesResponse.Result.Instances` (client.go 112-117) and in
`OccurrenceResponse.Result` (client.go 124-129); `ItemID` is a `json.Number`. -/
structure InstanceResult where
  ID : Int
  ItemID : String
  Timestamp : Int
  Data : GoMap

/-- The type `OccurrencesResponse` (client.go 109-119); `Instances` is
`Result.Instances`. -/
structure OccurrencesResponse where
  Err : Int
  Instances : List InstanceResult

/-- The type `OccurrenceResponse` (client.go 122-130). -/
structure OccurrenceResponse where
  Err : Int
  Result : InstanceResult

/-- The error value `fmt.Errorf("API returned error code: %d", code)`, by its message. -/
def apiError (code : Int) : String :=
  "API returned error code: " ++ toString code

/-- The method `String` of `json.Number`: the text itself. -/
def Number.String (n : String) : String := n

section Client

-- `timeFormat ts` is the text `time.Unix(ts, 0).UTC().Format("2006-01-02 15:04:05")`
-- of the standard library.
variable (timeFormat : Int → String)

/-- The function `formatTimestamp` (client.go 132-134). -/
def formatTimestamp (ts : Int) : String :=
  timeFormat ts

/-- The `Item` literal of client.go 173-183 and 205-215. -/
def itemOf (item : ItemResult) : Item :=
  { ID := Number.String item.ID
    Counter := item.Counter
    Title := item.Title
    Level := item.Level
    Status := item.Status
    Environment := item.Environment
    TotalOccurrences := item.TotalOccurrences
    LastOccurrence := formatTimestamp timeFormat item.LastOccurrenceTimestamp
    FirstOccurrence := formatTimestamp timeFormat item.FirstOccurrenceTimestamp }

/-- The `Occurrence` literal of client.go 241-246 and 268-273. -/
def occurrenceOf (occ : InstanceResult) : Occurrence :=
  { ID := occ.ID
    ItemID := Number.String occ.ItemID
    Timestamp := formatTimestamp timeFormat occ.Timestamp
    Data := occ.Data }

/-- The loop of `GetItems` (client.go 169-184), from index `i` on. -/
def itemsLoop (limit : Int) : Nat → List ItemResult → List Item → List Item
  | _, [], items => items
  | i, item :: rest, items =>
    if (i : Int) ≥ limit then items
    else itemsLoop limit (i + 1) rest (items ++ [itemOf timeFormat item])

/-- The loop of `GetOccurrences` (client.go 237-247), from index `i` on. -/
def occurrencesLoop (limit : Int) :
    Nat → List InstanceResult → List Occurrence → List Occurrence
  | _, [], occurrences => occurrences
  | i, occ :: rest, occurrences =>
    if (i : Int) ≥ limit then occurrences
    else occurrencesLoop limit (i + 1) rest (occurrences ++ [occurrenceOf timeFormat occ])

/-- The function `GetItems` (client.go 137-187) from the outcome `decoded` of
`doRequest` and `json.Unmarshal` on: their error, or the decoded response.
The result is the pair of Go: the slice (`none` is the nil slice) and the
error (`none` is the nil error). -/
def GetItems (limit : Int) (decoded : Except String ItemsResponse) :
    Option (List Item) × Option String :=
  match decoded with
  | Except.error err => (none, some err)
  | Except.ok resp =>
    if resp.Err ≠ 0 then (none, some (apiError resp.Err))
    else (some (itemsLoop timeFormat limit 0 resp.Items []), none)

/-- The function `GetItem` (client.go 190-216), from the outcome `decoded` on. -/
def GetItem (decoded : Except String ItemResponse) : Option Item × Option String :=
  match decoded with
  | Except.error err => (none, some err)
  | Except.ok resp =>
    if resp.Err ≠ 0 then (none, some (apiError resp.Err))
    else (some (itemOf timeFormat resp.Result), none)

/-- The function `GetOccurrences` (client.go 219-250), from the outcome `decoded` on. -/
def GetOccurrences (limit : Int) (decoded : Except String OccurrencesResponse) :
    Option (List Occurrence) × Option String :=
  match decoded with
  | Except.error err => (none, some err)
  | Except.ok resp =>
    if resp.Err ≠ 0 then (none, some (apiError resp.Err))
    else (some (occurrencesLoop timeFormat limit 0 resp.Instances []), none)

/-- The function `GetOccurrence` (client.go 253-274), from the outcome `decoded` on. -/
def GetOccurrence (decoded : Except String OccurrenceResponse) :
    Option Occurrence × Option String :=
  match decoded with
  | Except.error err => (none, some err)
  | Except.ok resp =>
    if resp.Err ≠ 0 then (none, some (apiError resp.Err))
    else (some (occurrenceOf timeFormat resp.Result), none)

end Client

/-! ## Decoding a field of type `json.Number` -/

/-- A JSON value as `encoding/json` meets it at the place of a field: `null`,
a boolean, a number literal by its text, a string literal by its unquoted
content, an array or an object. -/
inductive Literal where
  | null
  | bool (b : Bool)
  | number (text : String)
  | string (content : String)
  | array
  | object

/-- The errors of `encoding/json` for a field of type `json.Number`:
`json: invalid number literal, trying to unmarshal ... into Number`, and the
`UnmarshalTypeError` for a JSON value of the named kind. -/
inductive DecodeError where
  | invalidNumberLiteral (content : String)
  | unmarshalType (value : String)
  deriving DecidableEq

/-- Whether the character is an ASCII digit. -/
def isDigit (c : Char) : Bool := decide ('0' ≤ c ∧ c ≤ '9')

/-- The rest of the text after its leading digits. -/
def skipDigits : List Char → List Char
  | [] => []
  | c :: cs => if isDigit c then skipDigits cs else c :: cs

/-- The function `isValidNumber` of `encoding/json`, the grammar of JSON
numbers: an optional `-`, the digits (`0`, or a digit from 1 to 9 and more
digits), an optional `.` with digits, an optional exponent. -/
def isValidNumber (s : String) : Bool :=
  match s.data with
  | [] => false
  | c0 :: r0 =>
    let afterSign : Option (List Char) :=
      if c0 = '-' then (if r0 = [] then none else some r0) else some (c0 :: r0)
    match afterSign with
    | none => false
    | some [] => false
    | some (c :: r) =>
      let afterInt : Option (List Char) :=
        if c = '0' then some r
        else if '1' ≤ c ∧ c ≤ '9' then some (skipDigits r)
        else none
      match afterInt with
      | none => false
      | some s1 =>
        let s2 :=
          match s1 with
          | '.' :: d :: t => if isDigit d then skipDigits t else s1
          | _ => s1
        match s2 with
        | e :: x :: t =>
          if e = 'e' ∨ e = 'E' then
            if x = '+' ∨ x = '-' then
              (if t = [] then false else decide (skipDigits t = []))
            else decide (skipDigits (x :: t) = [])
          else false
        | [_] => false
        | [] => true

/-- The decoding of `encoding/json` (`literalStore`, `array`, `object`) for a
destination of type `json.Number` that holds `old`: `null` leaves it, a number
literal stores its text (valid, since the scanner accepted it), a string
literal stores its content when that is a valid number and is an error
otherwise, any other value is an `UnmarshalTypeError`. -/
def decodeNumber (old : String) : Literal → Except DecodeError String
  | Literal.null => Except.ok old
  | Literal.number text => Except.ok text
  | Literal.string content =>
    if isValidNumber content then Except.ok content
    else Except.error (DecodeError.invalidNumberLiteral content)
  | Literal.bool _ => Except.error (DecodeError.unmarshalType "bool")
  | Literal.array => Except.error (DecodeError.unmarshalType "array")
  | Literal.object => Except.error (DecodeError.unmarshalType "object")

/-! ## Notions of the specification -/

/-- The active trace of a body, in the words of the specification: the first
element of `trace_chain` when that is a sequence and not empty, otherwise
`trace` when present. -/
def activeTrace (body : GoMap) : Option Value :=
  match asSlice (body.index "trace_chain") with
  | some (first :: _) => some first
  | _ => body.get "trace"

/-- The payload `data`, whose `body` is the map `body`, with `body.trace` removed. -/
def withoutTrace (data : GoMap) (body : GoMap) : GoMap :=
  data.set "body" (Value.obj (body.erase "trace"))

/-- Whether the value is a trace object that holds an `exception` object. -/
def holdsException (v : Value) : Bool :=
  match asMap v with
  | some t => (asMap (t.index "exception")).isSome
  | none => false

/-- Whether the value is a trace object that holds a `frames` sequence. -/
def holdsFrames (v : Value) : Bool :=
  match asMap v with
  | some t => (asSlice (t.index "frames")).isSome
  | none => false

/-- The keys a summary may hold. -/
def summaryKeys : List String :=
  ["environment", "level", "message", "exception_class", "exception_message",
    "backtrace", "server", "request"]

/-- The sections of a summary with the fields each one lists. -/
def summarySections : List (String × List String) :=
  [("server", ["host", "root", "pid"]),
    ("request", ["url", "method", "user_ip", "params", "headers"])]

/-- The line of one frame object: `Sprintf3` on its `filename`, `lineno` and
`method`, each read with the one-valued map read. -/
def frameLine (frame : GoMap) : String :=
  Sprintf3 (frame.index "filename") (frame.index "lineno") (frame.index "method")

/-! ## Example payloads -/

/-- The frame `{filename: "a.py", lineno: 10, method: "f"}`. -/
def frameA : Value :=
  Value.obj [("filename", Value.str "a.py"),
    ("lineno", Value.num (Float64.int false 10 (by decide))), ("method", Value.str "f")]

/-- The frame `{filename: "b.py", lineno: 7, method: "g"}`. -/
def frameB : Value :=
  Value.obj [("filename", Value.str "b.py"),
    ("lineno", Value.num (Float64.int false 7 (by decide))), ("method", Value.str "g")]

/-- The frame `{filename: "a.py", lineno: 1000000, method: "f"}`. -/
def frameMillion : Value :=
  Value.obj [("filename", Value.str "a.py"),
    ("lineno", Value.num (Float64.int false 1000000 (by decide))), ("method", Value.str "f")]

/-- A trace with the exception `Inner: boom` and the frame `frameA`. -/
def innerTrace : GoMap :=
  [("exception", Value.obj [("class", Value.str "Inner"), ("message", Value.str "boom")]),
    ("frames", Value.arr [frameA])]

/-- A trace with the exception `Outer: wrapped` and the frame `frameB`. -/
def outerTrace : GoMap :=
  [("exception", Value.obj [("class", Value.str "Outer"), ("message", Value.str "wrapped")]),
    ("frames", Value.arr [frameB])]

/-- A trace with the exception `Outer: wrapped` and no `frames`. -/
def outerNoFrames : GoMap :=
  [("exception", Value.obj [("class", Value.str "Outer"), ("message", Value.str "wrapped")])]

/-- A trace with the exception `Inner: boom` and no `frames`. -/
def innerNoFrames : GoMap :=
  [("exception", Value.obj [("class", Value.str "Inner"), ("message", Value.str "boom")])]

/-- A body whose trace and whose first chain element hold an exception and no
`frames`. -/
def exceptionOnlyBody : GoMap :=
  [("trace", Value.obj innerNoFrames), ("trace_chain", Value.arr [Value.obj outerNoFrames])]

/-- A body with the trace `innerTrace` and a chain whose first element is `first`. -/
def chainedBody (first : Value) : GoMap :=
  [("trace", Value.obj innerTrace), ("trace_chain", Value.arr [first])]

/-- The payload `{body: body}`. -/
def payloadOf (body : GoMap) : GoMap :=
  [("body", Value.obj body)]

/-- A body whose trace has an exception object with a `message` and no `class`. -/
def classlessBody : GoMap :=
  [("trace", Value.obj [("exception", Value.obj [("message", Value.str "boom")])])]

/-- A body whose trace has three frames: a string, `frameA` and an empty map. -/
def mixedFramesBody : GoMap :=
  [("trace", Value.obj [("frames", Value.arr [Value.str "native", frameA, Value.obj []])])]

/-- An item of a list response, by its number. -/
def sampleItem (i : Nat) : ItemResult :=
  { ID := toString i, Counter := i, Title := "", Level := "error", Status := "active",
    Environment := "production", TotalOccurrences := 1, LastOccurrenceTimestamp := 0,
    FirstOccurrenceTimestamp := 0 }

/-- An occurrence of a list response, by its number. -/
def sampleInstance (i : Nat) : InstanceResult :=
  { ID := i, ItemID := "12345", Timestamp := 0, Data := [] }

/-- A list response of 25 items with error code 0. -/
def sampleItems : ItemsResponse :=
  { Err := 0, Items := (List.range 25).map sampleItem }

/-- A list response of 25 occurrences with error code 0. -/
def sampleInstances : OccurrencesResponse :=
  { Err := 0, Instances := (List.range 25).map sampleInstance }

/-! ## Maps -/

theorem GoMap.get_erase (m : GoMap) (k x : String) :
    (m.erase k).get x = if k = x then none else m.get x := by
  induction m with
  | nil => simp [GoMap.erase, GoMap.get]
  | cons p m ih =>
    obtain ⟨k', v⟩ := p
    by_cases h : k' = k
    · rw [GoMap.erase, if_pos h, ih]
      by_cases hx : k = x
      · simp [hx]
      · have hk : ¬ k' = x := fun e => hx (h ▸ e)
        simp [GoMap.get, hx, hk]
    · rw [GoMap.erase, if_neg h]
      by_cases hk : k' = x
      · have hx : ¬ k = x := fun e => h (hk.trans e.symm)
        simp only [GoMap.get, if_pos hk, if_neg hx]
      · simp only [GoMap.get, if_neg hk, ih]

theorem GoMap.get_set (m : GoMap) (k : String) (v : Value) (x : String) :
    (m.set k v).get x = if k = x then some v else m.get x := by
  by_cases h : k = x <;> simp [GoMap.set, GoMap.get, GoMap.get_erase, h]

theorem GoMap.get_set_rev (m : GoMap) (k : String) (v : Value) (x : String) :
    (m.set k v).get x = if x = k then some v else m.get x := by
  rw [GoMap.get_set]
  by_cases h : k = x
  · simp [h]
  · simp [h, Ne.symm h]

theorem GoMap.index_set (m : GoMap) (k : String) (v : Value) (x : String) :
    (m.set k v).index x = if k = x then v else m.index x := by
  by_cases h : k = x <;> simp [GoMap.index, GoMap.get_set, h]

theorem GoMap.index_erase_ne (m : GoMap) (k x : String) (h : k ≠ x) :
    (m.erase k).index x = m.index x := by
  simp [GoMap.index, GoMap.get_erase, h]

theorem GoMap.mem_keys_erase (m : GoMap) (k x : String) (h : x ∈ (m.erase k).keys) :
    x ∈ m.keys := by
  induction m with
  | nil => simpa [GoMap.erase] using h
  | cons p m ih =>
    obtain ⟨k', v⟩ := p
    by_cases hk : k' = k
    · simp only [GoMap.erase, hk, if_true] at h
      simp only [GoMap.keys, List.map_cons, List.mem_cons]
      exact Or.inr (ih h)
    · simp only [GoMap.erase, hk, if_false, GoMap.keys, List.map_cons, List.mem_cons] at h
      simp only [GoMap.keys, List.map_cons, List.mem_cons]
      rcases h with h | h
      · exact Or.inl h
      · exact Or.inr (ih h)

theorem GoMap.mem_keys_set (m : GoMap) (k : String) (v : Value) (x : String)
    (h : x ∈ (m.set k v).keys) : x = k ∨ x ∈ m.keys := by
  simp only [GoMap.set, GoMap.keys, List.map_cons, List.mem_cons] at h
  rcases h with h | h
  · exact Or.inl h
  · exact Or.inr (GoMap.mem_keys_erase m k x h)

theorem GoMap.get_isSome_of_mem_keys (m : GoMap) (x : String) (h : x ∈ m.keys) :
    (m.get x).isSome = true := by
  induction m with
  | nil => simp [GoMap.keys] at h
  | cons p m ih =>
    obtain ⟨k', v⟩ := p
    simp only [GoMap.keys, List.map_cons, List.mem_cons] at h
    by_cases hk : k' = x
    · simp [GoMap.get, hk]
    · rcases h with h | h
      · exact absurd h.symm hk
      · simpa [GoMap.get, hk] using ih h

theorem GoMap.mem_keys_of_get (m : GoMap) (x : String) (v : Value) (h : m.get x = some v) :
    x ∈ m.keys := by
  induction m with
  | nil => simp [GoMap.get] at h
  | cons p m ih =>
    obtain ⟨k', w⟩ := p
    simp only [GoMap.keys, List.map_cons, List.mem_cons]
    by_cases hk : k' = x
    · exact Or.inl hk.symm
    · simp only [GoMap.get, hk, if_false] at h
      exact Or.inr (ih h)

/-! ## The steps of the extractor -/

theorem get_copyFieldAs (src : GoMap) (k k2 : String) (dst : GoMap) (x : String) :
    (copyFieldAs src k k2 dst).get x =
      if k2 = x ∧ (src.get k).isSome = true then src.get k else dst.get x := by
  unfold copyFieldAs
  cases h : src.get k with
  | none => simp
  | some v => by_cases hx : k2 = x <;> simp [GoMap.get_set, hx]

theorem get_copyField (src : GoMap) (k : String) (dst : GoMap) (x : String) :
    (copyField src k dst).get x =
      if k = x ∧ (src.get k).isSome = true then src.get k else dst.get x :=
  get_copyFieldAs src k k dst x

theorem mem_keys_copyFieldAs (src : GoMap) (k k2 : String) (dst : GoMap) (x : String)
    (h : x ∈ (copyFieldAs src k k2 dst).keys) : x = k2 ∨ x ∈ dst.keys := by
  unfold copyFieldAs at h
  cases hs : src.get k with
  | none => rw [hs] at h; exact Or.inr h
  | some v => rw [hs] at h; exact GoMap.mem_keys_set dst k2 v x h

theorem frameLoop_eq (frames : List Value) (backtrace : List String) :
    frameLoop frames backtrace = backtrace ++ (frames.filterMap asMap).map frameLine := by
  induction frames generalizing backtrace with
  | nil => simp [frameLoop]
  | cons f frames ih =>
    rw [frameLoop, ih]
    cases hf : asMap f with
    | none => simp [frameStep, hf]
    | some frame => simp [frameStep, hf, frameLine]

theorem extractTraceChain_eq (body : GoMap) (result : GoMap) :
    extractTraceChain body result =
      some (match asSlice (body.index "trace_chain") with
        | some (first :: _) =>
          (match asMap first with
            | some trace => extractTrace trace result
            | none => result)
        | _ => result) := by
  unfold extractTraceChain
  cases h : asSlice (body.index "trace_chain") with
  | none => rfl
  | some traceChain =>
    cases traceChain with
    | nil => rfl
    | cons first rest =>
      simp only [List.length_cons, sliceIndex, List.get?_cons_zero]
      cases asMap first <;> simp

theorem extractBody_isSome (data : GoMap) (result : GoMap) :
    ∃ r, extractBody data result = some r := by
  unfold extractBody
  cases asMap (data.index "body") with
  | none => exact ⟨_, rfl⟩
  | some body => exact ⟨_, extractTraceChain_eq body _⟩

theorem get_extractTrace (trace result : GoMap) (x : String) :
    (extractTrace trace result).get x =
      if x = "backtrace" ∧ (asSlice (trace.index "frames")).isSome = true then
        (asSlice (trace.index "frames")).map fun frames => Value.strs (frameLoop frames [])
      else if x = "exception_message" ∧ (asMap (trace.index "exception")).isSome = true then
        (asMap (trace.index "exception")).map fun exc => exc.index "message"
      else if x = "exception_class" ∧ (asMap (trace.index "exception")).isSome = true then
        (asMap (trace.index "exception")).map fun exc => exc.index "class"
      else result.get x := by
  unfold extractTrace
  cases hf : asSlice (trace.index "frames") <;> cases he : asMap (trace.index "exception") <;>
    by_cases h1 : x = "backtrace" <;> by_cases h2 : x = "exception_message" <;>
    by_cases h3 : x = "exception_class" <;>
    simp [GoMap.get_set_rev, h1, h2, h3]

theorem mem_keys_extractTrace (trace result : GoMap) (x : String)
    (h : x ∈ (extractTrace trace result).keys) :
    x ∈ ["exception_class", "exception_message", "backtrace"] ∨ x ∈ result.keys := by
  unfold extractTrace at h
  have key : ∀ r : GoMap, x ∈ (match asMap (trace.index "exception") with
      | some exc =>
        (r.set "exception_class" (exc.index "class")).set
          "exception_message" (exc.index "message")
      | none => r).keys →
      x ∈ ["exception_class", "exception_message", "backtrace"] ∨ x ∈ r.keys := by
    intro r hr
    cases he : asMap (trace.index "exception") with
    | none => rw [he] at hr; exact Or.inr hr
    | some exc =>
      rw [he] at hr
      rcases GoMap.mem_keys_set _ _ _ _ hr with h1 | h1
      · exact Or.inl (by simp [h1])
      · rcases GoMap.mem_keys_set _ _ _ _ h1 with h2 | h2
        · exact Or.inl (by simp [h2])
        · exact Or.inr h2
  cases hf : asSlice (trace.index "frames") with
  | none => rw [hf] at h; exact key result h
  | some frames =>
    rw [hf] at h
    rcases GoMap.mem_keys_set _ _ _ _ h with h1 | h1
    · exact Or.inl (by simp [h1])
    · exact key result h1

theorem length_pos_iff_get (m : GoMap) :
    m.length > 0 ↔ ∃ x, (m.get x).isSome = true := by
  cases m with
  | nil => simp [GoMap.get]
  | cons p m =>
    obtain ⟨k, v⟩ := p
    simp only [List.length_cons, gt_iff_lt, Nat.zero_lt_succ, true_iff]
    exact ⟨k, by simp [GoMap.get]⟩

theorem get_extractServer (data result : GoMap) (x : String) :
    (extractServer data result).get x =
      match asMap (data.index "server") with
      | some server =>
        if x = "server" ∧
            (copyField server "pid" (copyField server "root"
              (copyField server "host" [])) : GoMap).length > 0 then
          some (Value.obj (copyField server "pid" (copyField server "root"
            (copyField server "host" []))))
        else result.get x
      | none => result.get x := by
  unfold extractServer
  cases asMap (data.index "server") with
  | none => rfl
  | some server =>
    by_cases hx : x = "server" <;>
      by_cases hl : (copyField server "pid" (copyField server "root"
        (copyField server "host" [])) : GoMap).length > 0 <;>
      simp [GoMap.get_set_rev, hx, hl]

theorem get_extractRequest (data result : GoMap) (x : String) :
    (extractRequest data result).get x =
      match asMap (data.index "request") with
      | some req =>
        if x = "request" ∧
            (copyField req "headers" (copyField req "params" (copyField req "user_ip"
              (copyField req "method" (copyField req "url" [])))) : GoMap).length > 0 then
          some (Value.obj (copyField req "headers" (copyField req "params"
            (copyField req "user_ip" (copyField req "method" (copyField req "url" []))))))
        else result.get x
      | none => result.get x := by
  unfold extractRequest
  cases asMap (data.index "request") with
  | none => rfl
  | some req =>
    by_cases hx : x = "request" <;>
      by_cases hl : (copyField req "headers" (copyField req "params" (copyField req "user_ip"
        (copyField req "method" (copyField req "url" [])))) : GoMap).length > 0 <;>
      simp [GoMap.get_set_rev, hx, hl]

theorem mem_keys_extractServer (data result : GoMap) (x : String)
    (h : x ∈ (extractServer data result).keys) : x = "server" ∨ x ∈ result.keys := by
  unfold extractServer at h
  cases hs : asMap (data.index "server") with
  | none => rw [hs] at h; exact Or.inr h
  | some server =>
    rw [hs] at h
    simp only at h
    split_ifs at h
    · exact GoMap.mem_keys_set _ _ _ _ h
    · exact Or.inr h

theorem mem_keys_extractRequest (data result : GoMap) (x : String)
    (h : x ∈ (extractRequest data result).keys) : x = "request" ∨ x ∈ result.keys := by
  unfold extractRequest at h
  cases hs : asMap (data.index "request") with
  | none => rw [hs] at h; exact Or.inr h
  | some req =>
    rw [hs] at h
    simp only at h
    split_ifs at h
    · exact GoMap.mem_keys_set _ _ _ _ h
    · exact Or.inr h

/-- The keys the steps before `server` and `request` may write. -/
theorem mem_keys_extractBody (data result r : GoMap) (h : extractBody data result = some r)
    (x : String) (hx : x ∈ r.keys) :
    x ∈ ["message", "exception_class", "exception_message", "backtrace"] ∨
      x ∈ result.keys := by
  unfold extractBody at h
  cases hb : asMap (data.index "body") with
  | none =>
    rw [hb] at h
    simp only [Option.some.injEq] at h
    subst h
    exact Or.inr hx
  | some body =>
    rw [hb] at h
    simp only at h
    rw [extractTraceChain_eq] at h
    simp only [Option.some.injEq] at h
    have hmsg : ∀ y, y ∈ (extractMessage body result).keys → y = "message" ∨ y ∈ result.keys := by
      intro y hy
      unfold extractMessage at hy
      cases hm : asMap (body.index "message") with
      | none => rw [hm] at hy; exact Or.inr hy
      | some msg => rw [hm] at hy; exact mem_keys_copyFieldAs _ _ _ _ _ hy
    have htr : ∀ y, y ∈ (extractTraceField body (extractMessage body result)).keys →
        y ∈ ["message", "exception_class", "exception_message", "backtrace"] ∨
          y ∈ result.keys := by
      intro y hy
      unfold extractTraceField at hy
      cases ht : asMap (body.index "trace") with
      | none =>
        rw [ht] at hy
        rcases hmsg y hy with h1 | h1
        · exact Or.inl (by simp [h1])
        · exact Or.inr h1
      | some trace =>
        rw [ht] at hy
        rcases mem_keys_extractTrace _ _ _ hy with h1 | h1
        · exact Or.inl (List.mem_cons_of_mem _ h1)
        · rcases hmsg y h1 with h2 | h2
          · exact Or.inl (by simp [h2])
          · exact Or.inr h2
    subst h
    cases hc : asSlice (body.index "trace_chain") with
    | none => rw [hc] at hx; exact htr x hx
    | some chain =>
      rw [hc] at hx
      cases chain with
      | nil => exact htr x hx
      | cons first rest =>
        simp only at hx
        cases hf : asMap first with
        | none => rw [hf] at hx; exact htr x hx
        | some trace =>
          rw [hf] at hx
          rcases mem_keys_extractTrace _ _ _ hx with h1 | h1
          · exact Or.inl (List.mem_cons_of_mem _ h1)
          · exact htr x h1

/-- The summary, step by step: the panic of `extractBody` never happens. -/
theorem FormatOccurrenceData_eq (data : GoMap) :
    ∃ r, extractBody data (copyField data "level" (copyField data "environment" [])) = some r ∧
      FormatOccurrenceData data = some (extractRequest data (extractServer data r)) := by
  obtain ⟨r, hr⟩ := extractBody_isSome data
    (copyField data "level" (copyField data "environment" []))
  exact ⟨r, hr, by simp [FormatOccurrenceData, hr]⟩

theorem mem_keys_beforeSections (data r : GoMap)
    (h : extractBody data (copyField data "level" (copyField data "environment" [])) = some r)
    (x : String) (hx : x ∈ r.keys) :
    x ∈ ["environment", "level", "message", "exception_class", "exception_message",
      "backtrace"] := by
  rcases mem_keys_extractBody _ _ _ h x hx with h1 | h1
  · simp only [List.mem_cons, List.mem_singleton, List.not_mem_nil, or_false] at h1 ⊢
    tauto
  · rcases mem_keys_copyFieldAs _ _ _ _ _ h1 with h2 | h2
    · simp [h2]
    · rcases mem_keys_copyFieldAs _ _ _ _ _ h2 with h3 | h3
      · simp [h3]
      · simp [GoMap.keys] at h3

theorem get_eq_none_of_not_mem_keys (m : GoMap) (x : String) (h : x ∉ m.keys) :
    m.get x = none := by
  cases hg : m.get x with
  | none => rfl
  | some v => exact absurd (GoMap.mem_keys_of_get m x v hg) h

theorem get_serverInfo (server : GoMap) (f : String) :
    (copyField server "pid" (copyField server "root" (copyField server "host" []))).get f =
      if f ∈ ["host", "root", "pid"] then server.get f else none := by
  simp only [get_copyField, GoMap.get]
  by_cases h1 : f = "host"
  · subst h1; cases server.get "host" <;> simp
  · by_cases h2 : f = "root"
    · subst h2; cases server.get "root" <;> simp
    · by_cases h3 : f = "pid"
      · subst h3; cases server.get "pid" <;> simp
      · simp [h1, h2, h3, Ne.symm h1, Ne.symm h2, Ne.symm h3]

theorem get_reqInfo (req : GoMap) (f : String) :
    (copyField req "headers" (copyField req "params" (copyField req "user_ip"
      (copyField req "method" (copyField req "url" []))))).get f =
      if f ∈ ["url", "method", "user_ip", "params", "headers"] then req.get f else none := by
  simp only [get_copyField, GoMap.get]
  by_cases h1 : f = "url"
  · subst h1; cases req.get "url" <;> simp
  · by_cases h2 : f = "method"
    · subst h2; cases req.get "method" <;> simp
    · by_cases h3 : f = "user_ip"
      · subst h3; cases req.get "user_ip" <;> simp
      · by_cases h4 : f = "params"
        · subst h4; cases req.get "params" <;> simp
        · by_cases h5 : f = "headers"
          · subst h5; cases req.get "headers" <;> simp
          · simp [h1, h2, h3, h4, h5, Ne.symm h1, Ne.symm h2, Ne.symm h3, Ne.symm h4,
              Ne.symm h5]

/-- A section map `info` built from `src` by copying the listed fields is
stored in the summary exactly when one of the fields is in `src`. -/
theorem section_spec (fields : List String) (src info : GoMap) (prev : Option Value)
    (hinfo : ∀ f, info.get f = if f ∈ fields then src.get f else none)
    (got : Option Value)
    (hgot : got = if info.length > 0 then some (Value.obj info) else prev)
    (hprev : prev = none) :
    (got.isSome = true ↔ ∃ f ∈ fields, (src.get f).isSome = true) ∧
    (∀ v, got = some v → v = Value.obj info ∧ info ≠ []) := by
  subst hprev
  have hlen : info.length > 0 ↔ ∃ f ∈ fields, (src.get f).isSome = true := by
    rw [length_pos_iff_get]
    constructor
    · rintro ⟨x, hx⟩
      rw [hinfo] at hx
      by_cases hm : x ∈ fields
      · exact ⟨x, hm, by simpa [hm] using hx⟩
      · simp [hm] at hx
    · rintro ⟨f, hm, hf⟩
      exact ⟨f, by rw [hinfo]; simpa [hm] using hf⟩
  by_cases hl : info.length > 0
  · rw [if_pos hl] at hgot
    subst hgot
    refine ⟨⟨fun _ => hlen.mp hl, fun _ => rfl⟩, ?_⟩
    intro v hv
    simp only [Option.some.injEq] at hv
    refine ⟨hv.symm, ?_⟩
    intro he
    simp [he] at hl
  · rw [if_neg hl] at hgot
    subst hgot
    refine ⟨⟨fun h => by simp at h, fun h => absurd (hlen.mpr h) hl⟩, ?_⟩
    intro v hv
    simp at hv

theorem get_extractTrace_other (trace result : GoMap) (x : String)
    (h1 : x ≠ "backtrace") (h2 : x ≠ "exception_message") (h3 : x ≠ "exception_class") :
    (extractTrace trace result).get x = result.get x := by
  rw [get_extractTrace]
  simp [h1, h2, h3]

theorem get_extractTraceField_other (body result : GoMap) (x : String)
    (h1 : x ≠ "backtrace") (h2 : x ≠ "exception_message") (h3 : x ≠ "exception_class") :
    (extractTraceField body result).get x = result.get x := by
  unfold extractTraceField
  cases asMap (body.index "trace") with
  | none => rfl
  | some trace => exact get_extractTrace_other trace result x h1 h2 h3

/-- The keys of the trace in the summary are those the body steps left. -/
theorem get_sections_other (data r : GoMap) (x : String)
    (h1 : x ≠ "server") (h2 : x ≠ "request") :
    (extractRequest data (extractServer data r)).get x = r.get x := by
  rw [get_extractRequest, get_extractServer]
  cases asMap (data.index "request") <;> cases asMap (data.index "server") <;> simp [h1, h2]

theorem get_sections_congr (data r r' : GoMap) (h : ∀ x, r.get x = r'.get x) (x : String) :
    (extractRequest data (extractServer data r)).get x =
      (extractRequest data (extractServer data r')).get x := by
  rw [get_extractRequest, get_extractRequest, get_extractServer, get_extractServer, h x]

theorem copyField_src_congr (src src' : GoMap) (k : String) (dst : GoMap)
    (h : src'.get k = src.get k) : copyField src' k dst = copyField src k dst := by
  simp [copyField, copyFieldAs, h]

theorem extractServer_src_congr (data data' r : GoMap)
    (h : data'.index "server" = data.index "server") :
    extractServer data' r = extractServer data r := by
  simp [extractServer, h]

theorem extractRequest_src_congr (data data' r : GoMap)
    (h : data'.index "request" = data.index "request") :
    extractRequest data' r = extractRequest data r := by
  simp [extractRequest, h]

/-- The result of the body steps when the body is a map whose active trace is
the map `t`: the last write of each trace key is the one of `t`. -/
theorem extractBody_activeTrace (data body t result : GoMap)
    (hb : asMap (data.index "body") = some body)
    (ht : activeTrace body = some (Value.obj t)) :
    ∃ prev, extractBody data result = some (extractTrace t prev) := by
  unfold extractBody
  rw [hb]
  simp only
  rw [extractTraceChain_eq]
  unfold activeTrace at ht
  cases hc : asSlice (body.index "trace_chain") with
  | none =>
    rw [hc] at ht
    simp only at ht
    refine ⟨extractMessage body result, ?_⟩
    simp [extractTraceField, GoMap.index, ht, asMap]
  | some chain =>
    rw [hc] at ht
    cases chain with
    | nil =>
      simp only at ht
      refine ⟨extractMessage body result, ?_⟩
      simp [extractTraceField, GoMap.index, ht, asMap]
    | cons first rest =>
      simp only [Option.some.injEq] at ht
      subst ht
      refine ⟨extractTraceField body (extractMessage body result), ?_⟩
      simp [asMap]

/-! ## The claims -/

/-- C10: `FormatOccurrenceData` returns a summary for every payload and never
panics; the block that reads `traceChain[0]` returns for every body, the
index being guarded by the length test. -/
theorem FormatOccurrenceData_total (data : GoMap) :
    (∃ summary, FormatOccurrenceData data = some summary) ∧
      ∀ body result : GoMap, ∃ r, extractTraceChain body result = some r := by
  obtain ⟨r, _, h⟩ := FormatOccurrenceData_eq data
  exact ⟨⟨_, h⟩, fun body result => ⟨_, extractTraceChain_eq body result⟩⟩

/-- C9: for every payload the keys of the summary are among `environment`,
`level`, `message`, `exception_class`, `exception_message`, `backtrace`,
`server` and `request`. -/
theorem summary_keys_subset (data : GoMap) :
    ∃ summary, FormatOccurrenceData data = some summary ∧
      ∀ k ∈ summary.keys, k ∈ summaryKeys := by
  obtain ⟨r, hr, h⟩ := FormatOccurrenceData_eq data
  refine ⟨_, h, ?_⟩
  intro k hk
  rcases mem_keys_extractRequest _ _ _ hk with h1 | h1
  · simp [summaryKeys, h1]
  · rcases mem_keys_extractServer _ _ _ h1 with h2 | h2
    · simp [summaryKeys, h2]
    · have := mem_keys_beforeSections data r hr k h2
      simp only [List.mem_cons, List.mem_singleton, List.not_mem_nil, or_false] at this
      simp only [summaryKeys, List.mem_cons, List.mem_singleton, List.not_mem_nil, or_false]
      tauto

/-- C4: for each section `S` (`server` with host, root, pid; `request` with
url, method, user_ip, params, headers) the summary holds the key `S` exactly
when the payload's `S` is a map with at least one listed field; the value is
then a map that is not empty and holds exactly the listed fields of the source
with their values. A payload without `server` and `request` gives neither key. -/
theorem sections_mirror_source (data : GoMap) :
    ∃ summary, FormatOccurrenceData data = some summary ∧
      (∀ S fields, (S, fields) ∈ summarySections →
        ((summary.get S).isSome = true ↔
          ∃ src, asMap (data.index S) = some src ∧ ∃ f ∈ fields, (src.get f).isSome = true) ∧
        (∀ v, summary.get S = some v →
          ∃ src info : GoMap, asMap (data.index S) = some src ∧ v = Value.obj info ∧ info ≠ [] ∧
            ∀ f, info.get f = if f ∈ fields then src.get f else none)) ∧
      (data.get "server" = none → data.get "request" = none →
        summary.get "server" = none ∧ summary.get "request" = none) := by
  obtain ⟨r, hr, h⟩ := FormatOccurrenceData_eq data
  have hns : r.get "server" = none :=
    get_eq_none_of_not_mem_keys _ _ fun hm => by
      have := mem_keys_beforeSections data r hr _ hm
      simp at this
  have hnr : r.get "request" = none :=
    get_eq_none_of_not_mem_keys _ _ fun hm => by
      have := mem_keys_beforeSections data r hr _ hm
      simp at this
  have hserver : (extractRequest data (extractServer data r)).get "server" =
      match asMap (data.index "server") with
      | some server =>
        if (copyField server "pid" (copyField server "root"
            (copyField server "host" [])) : GoMap).length > 0 then
          some (Value.obj (copyField server "pid" (copyField server "root"
            (copyField server "host" []))))
        else none
      | none => none := by
    rw [get_extractRequest]
    have e : (extractServer data r).get "server" = _ := get_extractServer data r "server"
    cases hq : asMap (data.index "request") <;> cases hs : asMap (data.index "server") <;>
      simp [e, hs, hns]
  have hrequest : (extractRequest data (extractServer data r)).get "request" =
      match asMap (data.index "request") with
      | some req =>
        if (copyField req "headers" (copyField req "params" (copyField req "user_ip"
            (copyField req "method" (copyField req "url" [])))) : GoMap).length > 0 then
          some (Value.obj (copyField req "headers" (copyField req "params"
            (copyField req "user_ip" (copyField req "method" (copyField req "url" []))))))
        else none
      | none => none := by
    rw [get_extractRequest]
    have e : (extractServer data r).get "request" = _ := get_extractServer data r "request"
    cases hq : asMap (data.index "request") <;> cases hs : asMap (data.index "server") <;>
      simp [e, hs, hnr]
  refine ⟨_, h, ?_, ?_⟩
  · intro S fields hS
    simp only [summarySections, List.mem_cons, Prod.mk.injEq, List.mem_singleton,
      List.not_mem_nil, or_false] at hS
    rcases hS with ⟨rfl, rfl⟩ | ⟨rfl, rfl⟩
    · rw [hserver]
      cases hs : asMap (data.index "server") with
      | none => simp
      | some server =>
        obtain ⟨h1, h2⟩ := section_spec ["host", "root", "pid"] server _ none
          (get_serverInfo server) _ rfl rfl
        refine ⟨?_, ?_⟩
        · rw [h1]
          exact ⟨fun hx => ⟨server, rfl, hx⟩, fun ⟨src, e, hx⟩ => by
            simp only [Option.some.injEq] at e; subst e; exact hx⟩
        · intro v hv
          obtain ⟨e1, e2⟩ := h2 v hv
          exact ⟨server, _, rfl, e1, e2, get_serverInfo server⟩
    · rw [hrequest]
      cases hs : asMap (data.index "request") with
      | none => simp
      | some req =>
        obtain ⟨h1, h2⟩ := section_spec
          ["url", "method", "user_ip", "params", "headers"] req _ none
          (get_reqInfo req) _ rfl rfl
        refine ⟨?_, ?_⟩
        · rw [h1]
          exact ⟨fun hx => ⟨req, rfl, hx⟩, fun ⟨src, e, hx⟩ => by
            simp only [Option.some.injEq] at e; subst e; exact hx⟩
        · intro v hv
          obtain ⟨e1, e2⟩ := h2 v hv
          exact ⟨req, _, rfl, e1, e2, get_reqInfo req⟩
  · intro h1 h2
    rw [hserver, hrequest]
    simp [GoMap.index, h1, h2, asMap]

/-- C2, as the code has it: when the active trace has an `exception` object the
summary holds both keys `exception_class` and `exception_message`; each one
carries the value of `class` (of `message`) when the exception object has the
field, and `nil` when it has not. -/
theorem exception_keys_always_set (data body t exc : GoMap)
    (hb : asMap (data.index "body") = some body)
    (ht : activeTrace body = some (Value.obj t))
    (he : asMap (t.index "exception") = some exc) :
    ∃ summary, FormatOccurrenceData data = some summary ∧
      summary.get "exception_class" = some ((exc.get "class").getD Value.null) ∧
      summary.get "exception_message" = some ((exc.get "message").getD Value.null) := by
  obtain ⟨r, hr, h⟩ := FormatOccurrenceData_eq data
  obtain ⟨prev, hp⟩ := extractBody_activeTrace data body t _ hb ht
  rw [hp] at hr
  simp only [Option.some.injEq] at hr
  subst hr
  refine ⟨_, h, ?_, ?_⟩
  · rw [get_sections_other _ _ _ (by decide) (by decide), get_extractTrace]
    simp only [he]
    cases hx : exc.get "class" <;> simp [GoMap.index, hx]
  · rw [get_sections_other _ _ _ (by decide) (by decide), get_extractTrace]
    simp only [he]
    cases hx : exc.get "message" <;> simp [GoMap.index, hx]

theorem filterMap_asMap_obj (maps : List GoMap) :
    (maps.map Value.obj).filterMap asMap = maps := by
  induction maps with
  | nil => rfl
  | cons m ms ih =>
    rw [List.map_cons, List.filterMap_cons]
    simp only [asMap]
    rw [ih]

/-- C3, as the code has it: when the active trace has a `frames` sequence the
`backtrace` holds one line per frame that is a map, in the order of `frames`,
each made of the frame's `filename`, `lineno` and `method` with `<nil>` for a
missing one; a frame that is not a map gives no line. When every frame is a
map the backtrace has one line per frame, the i-th line from the i-th frame. -/
theorem backtrace_of_map_frames (data body t : GoMap) (frames : List Value)
    (hb : asMap (data.index "body") = some body)
    (ht : activeTrace body = some (Value.obj t))
    (hf : asSlice (t.index "frames") = some frames) :
    ∃ summary, FormatOccurrenceData data = some summary ∧
      summary.get "backtrace" =
        some (Value.strs ((frames.filterMap asMap).map frameLine)) ∧
      (∀ frame : GoMap, frameLine frame =
        fmtV ((frame.get "filename").getD Value.null) ++ ":" ++
          fmtV ((frame.get "lineno").getD Value.null) ++ " in " ++
          fmtV ((frame.get "method").getD Value.null)) ∧
      fmtV Value.null = "<nil>" ∧
      (∀ maps : List GoMap, frames = maps.map Value.obj →
        summary.get "backtrace" = some (Value.strs (maps.map frameLine)) ∧
        (maps.map frameLine).length = frames.length) := by
  obtain ⟨r, hr, h⟩ := FormatOccurrenceData_eq data
  obtain ⟨prev, hp⟩ := extractBody_activeTrace data body t _ hb ht
  rw [hp] at hr
  simp only [Option.some.injEq] at hr
  subst hr
  have hbt : (extractRequest data (extractServer data (extractTrace t prev))).get "backtrace" =
      some (Value.strs ((frames.filterMap asMap).map frameLine)) := by
    rw [get_sections_other _ _ _ (by decide) (by decide), get_extractTrace]
    simp [hf, frameLoop_eq]
  refine ⟨_, h, hbt, ?_, ?_, ?_⟩
  · intro frame
    simp only [frameLine, Sprintf3, GoMap.index]
    cases frame.get "filename" <;> cases frame.get "lineno" <;> cases frame.get "method" <;> rfl
  · simp [fmtV]
  · intro maps hmaps
    have hfm : frames.filterMap asMap = maps := by
      rw [hmaps]
      exact filterMap_asMap_obj maps
    rw [hbt, hfm]
    subst hmaps
    simp

theorem get_sections_congr_at (data r r' : GoMap) (x : String) (h : r.get x = r'.get x) :
    (extractRequest data (extractServer data r)).get x =
      (extractRequest data (extractServer data r')).get x := by
  rw [get_extractRequest, get_extractRequest, get_extractServer, get_extractServer, h]

/-- The steps before the body write none of the keys of the trace. -/
theorem get_extractMessage_trace_key (data body : GoMap) (x : String)
    (hx : x = "backtrace" ∨ x = "exception_message" ∨ x = "exception_class") :
    (extractMessage body
      (copyField data "level" (copyField data "environment" []))).get x = none := by
  have h0 : (copyField data "level" (copyField data "environment" [])).get x = none := by
    rw [get_copyField, get_copyField]
    rcases hx with rfl | rfl | rfl <;> simp [GoMap.get]
  unfold extractMessage
  cases asMap (body.index "message") with
  | none => exact h0
  | some msg =>
    rw [get_copyFieldAs, h0]
    rcases hx with rfl | rfl | rfl <;> simp

theorem get_extractMessage_other (body result : GoMap) (x : String) (h : x ≠ "message") :
    (extractMessage body result).get x = result.get x := by
  unfold extractMessage
  cases asMap (body.index "message") with
  | none => rfl
  | some msg => simp [get_copyFieldAs, Ne.symm h]

theorem holdsException_of_map (v : Value) (t : GoMap) (h : asMap v = some t) :
    holdsException v = (asMap (t.index "exception")).isSome := by
  simp only [holdsException, h]

theorem holdsException_of_not_map (v : Value) (h : asMap v = none) :
    holdsException v = false := by
  simp only [holdsException, h]

theorem holdsFrames_of_map (v : Value) (t : GoMap) (h : asMap v = some t) :
    holdsFrames v = (asSlice (t.index "frames")).isSome := by
  simp only [holdsFrames, h]

theorem holdsFrames_of_not_map (v : Value) (h : asMap v = none) :
    holdsFrames v = false := by
  simp only [holdsFrames, h]

/-- The two body results that C1 compares: with `body.trace` the chain step
runs on the result of the trace step, without it on the result of the
message step. -/
theorem extractBody_with_and_without_trace (data body trace : GoMap) (first : Value)
    (rest : List Value) (result : GoMap)
    (hb : asMap (data.index "body") = some body)
    (hc : asSlice (body.index "trace_chain") = some (first :: rest))
    (htr : asMap (body.index "trace") = some trace) :
    extractBody data result =
        some (match asMap first with
          | some t => extractTrace t (extractTrace trace (extractMessage body result))
          | none => extractTrace trace (extractMessage body result)) ∧
      extractBody (withoutTrace data body) result =
        some (match asMap first with
          | some t => extractTrace t (extractMessage body result)
          | none => extractMessage body result) := by
  have hbody' : asMap ((withoutTrace data body).index "body") = some (body.erase "trace") := by
    simp [withoutTrace, GoMap.index, GoMap.get_set_rev, asMap]
  have hm : extractMessage (body.erase "trace") = extractMessage body := by
    funext res
    simp [extractMessage, GoMap.index_erase_ne]
  have htf : ∀ res, extractTraceField (body.erase "trace") res = res := by
    intro res
    simp [extractTraceField, GoMap.index, GoMap.get_erase, asMap]
  have htf' : ∀ res, extractTraceField body res = extractTrace trace res := by
    intro res
    simp [extractTraceField, htr]
  unfold extractBody
  rw [hb, hbody']
  simp only
  rw [extractTraceChain_eq, extractTraceChain_eq, GoMap.index_erase_ne _ _ _ (by decide), hc,
    hm, htf, htf']
  exact ⟨rfl, rfl⟩

/-- C1, as the code has it. For a payload whose `body` holds a `trace_chain`
of length at least 1 and a `trace` object: `exception_class` and
`exception_message` are those of the exception of `trace_chain[0]` whenever
that element holds an `exception` object, and `backtrace` is made of its
frames whenever it holds a `frames` sequence; the summary is the summary of
the same payload with `body.trace` removed (the same value under every key)
exactly when `trace_chain[0]` holds an `exception` object if `body.trace`
holds one and a `frames` sequence if `body.trace` holds one, and then the
keys that `trace_chain[0]` does not give are absent from the summary. -/
theorem trace_chain_first_wins (data body trace : GoMap) (first : Value)
    (rest : List Value)
    (hb : asMap (data.index "body") = some body)
    (hc : asSlice (body.index "trace_chain") = some (first :: rest))
    (htr : asMap (body.index "trace") = some trace) :
    ∃ summary summary', FormatOccurrenceData data = some summary ∧
      FormatOccurrenceData (withoutTrace data body) = some summary' ∧
      (∀ t exc : GoMap, asMap first = some t → asMap (t.index "exception") = some exc →
        summary.get "exception_class" = some ((exc.get "class").getD Value.null) ∧
        summary.get "exception_message" = some ((exc.get "message").getD Value.null)) ∧
      (∀ (t : GoMap) (frames : List Value), asMap first = some t →
        asSlice (t.index "frames") = some frames →
        summary.get "backtrace" =
          some (Value.strs ((frames.filterMap asMap).map frameLine))) ∧
      ((∀ k, summary.get k = summary'.get k) ↔
        ((holdsException (Value.obj trace) = true → holdsException first = true) ∧
          (holdsFrames (Value.obj trace) = true → holdsFrames first = true))) ∧
      ((holdsException (Value.obj trace) = true → holdsException first = true) →
        holdsException first = false →
        summary.get "exception_class" = none ∧ summary.get "exception_message" = none) ∧
      ((holdsFrames (Value.obj trace) = true → holdsFrames first = true) →
        holdsFrames first = false → summary.get "backtrace" = none) := by
  obtain ⟨r, hr, h⟩ := FormatOccurrenceData_eq data
  obtain ⟨r', hr', h'⟩ := FormatOccurrenceData_eq (withoutTrace data body)
  have hget : ∀ x, x ≠ "body" → (withoutTrace data body).get x = data.get x := by
    intro x hx
    simp [withoutTrace, GoMap.get_set_rev, hx]
  have hidx : ∀ x, x ≠ "body" → (withoutTrace data body).index x = data.index x := by
    intro x hx
    simp [GoMap.index, hget x hx]
  rw [extractServer_src_congr data _ _ (hidx "server" (by decide)),
    extractRequest_src_congr data _ _ (hidx "request" (by decide))] at h'
  rw [copyField_src_congr data _ _ _ (hget "level" (by decide)),
    copyField_src_congr data _ _ _ (hget "environment" (by decide))] at hr'
  obtain ⟨e1, e2⟩ := extractBody_with_and_without_trace data body trace first rest
    (copyField data "level" (copyField data "environment" [])) hb hc htr
  rw [e1] at hr
  rw [e2] at hr'
  simp only [Option.some.injEq] at hr hr'
  have hmk := get_extractMessage_trace_key data body
  have hc1 := hmk "exception_class" (by simp)
  have hc2 := hmk "exception_message" (by simp)
  have hc3 := hmk "backtrace" (by simp)
  refine ⟨_, _, h, h', ?_⟩
  rw [get_sections_other data r "exception_class" (by decide) (by decide),
    get_sections_other data r "exception_message" (by decide) (by decide),
    get_sections_other data r "backtrace" (by decide) (by decide)]
  have hiff : (∀ k, (extractRequest data (extractServer data r)).get k =
      (extractRequest data (extractServer data r')).get k) ↔ ∀ k, r.get k = r'.get k := by
    constructor
    · intro hall k
      by_cases h1 : k = "server"
      · subst h1
        subst hr
        subst hr'
        cases asMap first <;>
          simp [get_extractTrace_other, get_extractMessage_other, get_copyField, GoMap.get]
      · by_cases h2 : k = "request"
        · subst h2
          subst hr
          subst hr'
          cases asMap first <;>
            simp [get_extractTrace_other, get_extractMessage_other, get_copyField, GoMap.get]
        · have := hall k
          rwa [get_sections_other _ _ _ h1 h2, get_sections_other _ _ _ h1 h2] at this
    · intro hall k
      exact get_sections_congr_at data r r' k (hall k)
  rw [hiff, holdsException_of_map (Value.obj trace) trace rfl,
    holdsFrames_of_map (Value.obj trace) trace rfl]
  cases hfst : asMap first with
  | none =>
    rw [holdsException_of_not_map first hfst, holdsFrames_of_not_map first hfst]
    simp only [hfst] at hr hr'
    subst hr
    subst hr'
    refine ⟨fun t exc ht => (nomatch ht), fun t frames ht => (nomatch ht), ?_, ?_, ?_⟩
    · constructor
      · intro hall
        have k1 := hall "exception_class"
        have k3 := hall "backtrace"
        simp only [get_extractTrace, hc1, hc3] at k1 k3
        cases hx : asMap (trace.index "exception") <;>
          cases hy : asSlice (trace.index "frames") <;> simp_all
      · rintro ⟨hE, hF⟩ k
        simp only [get_extractTrace]
        cases hx : asMap (trace.index "exception") <;>
          cases hy : asSlice (trace.index "frames") <;> simp_all
    · intro hE _
      simp only [get_extractTrace, hc1, hc2]
      cases hx : asMap (trace.index "exception") <;> simp_all
    · intro hF _
      simp only [get_extractTrace, hc3]
      cases hy : asSlice (trace.index "frames") <;> simp_all
  | some t =>
    rw [holdsException_of_map first t hfst, holdsFrames_of_map first t hfst]
    simp only [hfst] at hr hr'
    subst hr
    subst hr'
    refine ⟨?_, ?_, ?_, ?_, ?_⟩
    · intro t' exc ht he
      simp only [Option.some.injEq] at ht
      subst ht
      simp only [get_extractTrace, he]
      cases hx : exc.get "class" <;> cases hy : exc.get "message" <;>
        simp [GoMap.index, hx, hy]
    · intro t' frames ht hf
      simp only [Option.some.injEq] at ht
      subst ht
      rw [get_extractTrace]
      simp [hf, frameLoop_eq]
    · constructor
      · intro hall
        have k1 := hall "exception_class"
        have k3 := hall "backtrace"
        simp only [get_extractTrace, hc1, hc3] at k1 k3
        cases hx : asMap (trace.index "exception") <;>
          cases hy : asSlice (trace.index "frames") <;>
          cases hu : asMap (t.index "exception") <;>
          cases hv : asSlice (t.index "frames") <;> simp_all
      · rintro ⟨hE, hF⟩ k
        simp only [get_extractTrace]
        cases hx : asMap (trace.index "exception") <;>
          cases hy : asSlice (trace.index "frames") <;>
          cases hu : asMap (t.index "exception") <;>
          cases hv : asSlice (t.index "frames") <;> simp_all
    · intro hE hne
      simp only [get_extractTrace, hc1, hc2]
      cases hx : asMap (trace.index "exception") <;>
        cases hu : asMap (t.index "exception") <;> simp_all
    · intro hF hne
      simp only [get_extractTrace, hc3]
      cases hy : asSlice (trace.index "frames") <;>
        cases hv : asSlice (t.index "frames") <;> simp_all

/-- C1 witness: the trace `Inner: boom` without frames next to a chain whose
first element is `Outer: wrapped` without frames; the summary is that of the
payload without `body.trace`, its exception is `Outer: wrapped` and it has no
backtrace. -/
theorem trace_chain_first_wins_witness :
    (asMap ((payloadOf exceptionOnlyBody).index "body") = some exceptionOnlyBody ∧
      asSlice (exceptionOnlyBody.index "trace_chain") = some [Value.obj outerNoFrames] ∧
      asMap (exceptionOnlyBody.index "trace") = some innerNoFrames) ∧
    ∃ summary summary',
      FormatOccurrenceData (payloadOf exceptionOnlyBody) = some summary ∧
      FormatOccurrenceData (withoutTrace (payloadOf exceptionOnlyBody) exceptionOnlyBody) =
        some summary' ∧
      (∀ k, summary.get k = summary'.get k) ∧
      summary.get "exception_class" = some (Value.str "Outer") ∧
      summary.get "exception_message" = some (Value.str "wrapped") ∧
      summary.get "backtrace" = none :=
  ⟨⟨rfl, rfl, rfl⟩,
    match trace_chain_first_wins (payloadOf exceptionOnlyBody) exceptionOnlyBody innerNoFrames
      (Value.obj outerNoFrames) [] rfl rfl rfl with
    | ⟨summary, summary', h1, h2, hexc, _, hiff, _, hnf⟩ =>
      ⟨summary, summary', h1, h2,
        hiff.mpr ⟨fun _ => rfl, fun h => absurd h (by decide)⟩,
        (hexc outerNoFrames
          [("class", Value.str "Outer"), ("message", Value.str "wrapped")] rfl rfl).1,
        (hexc outerNoFrames
          [("class", Value.str "Outer"), ("message", Value.str "wrapped")] rfl rfl).2,
        hnf (fun h => absurd h (by decide)) rfl⟩⟩

/-- C1 fails as stated: with a chain whose first element has an exception and
no `frames`, next to the trace `innerTrace`, the summary carries the frames of
`body.trace` as its backtrace, and the summary of the payload without
`body.trace` has no backtrace. -/
theorem trace_frames_survive_chain_without_frames :
    ∃ summary summary',
      asSlice ((chainedBody (Value.obj outerNoFrames)).index "trace_chain") =
        some [Value.obj outerNoFrames] ∧
      asMap ((chainedBody (Value.obj outerNoFrames)).index "trace") = some innerTrace ∧
      FormatOccurrenceData (payloadOf (chainedBody (Value.obj outerNoFrames))) =
        some summary ∧
      FormatOccurrenceData (withoutTrace (payloadOf (chainedBody (Value.obj outerNoFrames)))
        (chainedBody (Value.obj outerNoFrames))) = some summary' ∧
      summary.get "exception_class" = some (Value.str "Outer") ∧
      summary.get "backtrace" = some (Value.strs ["a.py:10 in f"]) ∧
      summary'.get "exception_class" = some (Value.str "Outer") ∧
      summary'.get "backtrace" = none :=
  ⟨_, _, rfl, rfl, rfl, rfl, rfl, rfl, rfl, rfl⟩

/-- C2 witness: the trace of `classlessBody`, whose exception has no `class`. -/
theorem exception_keys_always_set_witness :
    (asMap ((payloadOf classlessBody).index "body") = some classlessBody ∧
      activeTrace classlessBody =
        some (Value.obj [("exception", Value.obj [("message", Value.str "boom")])]) ∧
      asMap (GoMap.index [("exception", Value.obj [("message", Value.str "boom")])] "exception") =
        some [("message", Value.str "boom")]) ∧
    ∃ summary, FormatOccurrenceData (payloadOf classlessBody) = some summary ∧
      summary.get "exception_class" =
        some ((GoMap.get [("message", Value.str "boom")] "class").getD Value.null) ∧
      summary.get "exception_message" =
        some ((GoMap.get [("message", Value.str "boom")] "message").getD Value.null) :=
  ⟨⟨rfl, rfl, rfl⟩,
    exception_keys_always_set (payloadOf classlessBody) classlessBody
      [("exception", Value.obj [("message", Value.str "boom")])]
      [("message", Value.str "boom")] rfl rfl rfl⟩

/-- C2 fails as stated: the exception object of `classlessBody` has no
`class`, and the summary holds the key `exception_class`, with the value `nil`. -/
theorem exception_class_key_without_class :
    ∃ summary,
      activeTrace classlessBody =
        some (Value.obj [("exception", Value.obj [("message", Value.str "boom")])]) ∧
      GoMap.get [("message", Value.str "boom")] "class" = none ∧
      FormatOccurrenceData (payloadOf classlessBody) = some summary ∧
      summary.get "exception_class" = some Value.null ∧
      "exception_class" ∈ summary.keys :=
  ⟨_, rfl, rfl, rfl, rfl, by decide⟩

/-- C3 witness: the three frames of `mixedFramesBody`; the string gives no
line, the empty map gives the line of three `nil`. -/
theorem backtrace_of_map_frames_witness :
    (asMap ((payloadOf mixedFramesBody).index "body") = some mixedFramesBody ∧
      activeTrace mixedFramesBody =
        some (Value.obj [("frames", Value.arr [Value.str "native", frameA, Value.obj []])]) ∧
      asSlice (GoMap.index [("frames", Value.arr [Value.str "native", frameA, Value.obj []])]
        "frames") = some [Value.str "native", frameA, Value.obj []]) ∧
    ∃ summary, FormatOccurrenceData (payloadOf mixedFramesBody) = some summary ∧
      summary.get "backtrace" =
        some (Value.strs (([Value.str "native", frameA, Value.obj []].filterMap asMap).map
          frameLine)) :=
  ⟨⟨rfl, rfl, rfl⟩,
    match backtrace_of_map_frames (payloadOf mixedFramesBody) mixedFramesBody
      [("frames", Value.arr [Value.str "native", frameA, Value.obj []])]
      [Value.str "native", frameA, Value.obj []] rfl rfl rfl with
    | ⟨summary, h1, h2, _⟩ => ⟨summary, h1, h2⟩⟩

/-- C3 fails as stated: `mixedFramesBody` has three frames, the first of them
a string, and its backtrace has two lines: the frame that is not a map is
dropped. -/
theorem non_map_frame_dropped :
    ∃ summary backtrace,
      asSlice (GoMap.index [("frames", Value.arr [Value.str "native", frameA, Value.obj []])]
        "frames") = some [Value.str "native", frameA, Value.obj []] ∧
      FormatOccurrenceData (payloadOf mixedFramesBody) = some summary ∧
      summary.get "backtrace" = some (Value.strs backtrace) ∧
      backtrace = ["a.py:10 in f", "<nil>:<nil> in <nil>"] ∧
      backtrace.length ≠ [Value.str "native", frameA, Value.obj []].length :=
  ⟨_, _, rfl, rfl, rfl, rfl, by decide⟩

theorem trimZeros_append (l : List Char) :
    (trimZeros l).length ≤ l.length ∧
      trimZeros l ++ List.replicate (l.length - (trimZeros l).length) '0' = l := by
  induction l with
  | nil => simp [trimZeros]
  | cons c cs ih =>
    obtain ⟨ih1, ih2⟩ := ih
    cases hr : trimZeros cs with
    | nil =>
      rw [hr] at ih1 ih2
      simp only [List.length_nil, Nat.sub_zero, List.nil_append] at ih2
      by_cases hc : c = '0'
      · simp only [trimZeros, hr, hc, if_true, List.length_nil, List.length_cons, Nat.sub_zero,
          List.nil_append, List.replicate_succ, Nat.zero_le, true_and]
        rw [ih2]
      · simp only [trimZeros, hr, hc, if_false, List.length_cons, List.length_nil,
          Nat.zero_add, Nat.add_sub_cancel, List.singleton_append]
        exact ⟨by omega, by rw [ih2]⟩
    | cons r rs =>
      rw [hr] at ih1 ih2
      simp only [trimZeros, hr, List.length_cons, List.cons_append,
        Nat.add_sub_add_right, List.cons.injEq, true_and]
      simp only [List.length_cons] at ih1 ih2
      exact ⟨by omega, by simpa using ih2⟩

theorem toDigits_length_pos (n : Nat) : 1 ≤ (Nat.toDigits 10 n).length := by
  unfold Nat.toDigits
  rw [Nat.toDigitsCore]
  split_ifs
  · simp
  · rw [Nat.toDigitsCore_lens_eq]
    omega

theorem toDigits_length_le (n : Nat) (h : n < 1000000) : (Nat.toDigits 10 n).length ≤ 6 :=
  Nat.toDigitsCore_length 10 (by decide) (n + 1) n 6 (by simpa using h) (by decide)

/-- A float64 that is a non-negative integer below a million is printed by
`%v` as the decimal numeral of the integer. -/
theorem fmtFloat_small (n : Nat) (h : n < 1000000) (hn : n < 9007199254740992) :
    fmtFloat (Float64.int false n hn) = toString n := by
  by_cases h0 : n = 0
  · subst h0
    rfl
  · have hpos := toDigits_length_pos n
    have hle := toDigits_length_le n h
    obtain ⟨t1, t2⟩ := trimZeros_append (Nat.toDigits 10 n)
    have hcond : ¬ (((Nat.toDigits 10 n).length : Int) - 1 < -4 ∨
        ((Nat.toDigits 10 n).length : Int) - 1 ≥ 6) := by omega
    have hprec : max (((trimZeros (Nat.toDigits 10 n)).length : Int) -
        ((Nat.toDigits 10 n).length : Int)) 0 = 0 := by omega
    have hdp : ((Nat.toDigits 10 n).length : Int) > 0 := by omega
    have hmin : min (trimZeros (Nat.toDigits 10 n)).length (Nat.toDigits 10 n).length =
        (trimZeros (Nat.toDigits 10 n)).length := by omega
    simp only [fmtFloat, shortestDigits, h0, if_false, decimalSlice.nd, hcond, hprec, fmtF,
      hdp, if_true, Int.toNat_ofNat, hmin, List.take_length, t2, lt_self_iff_false,
      Bool.false_eq_true, List.nil_append, List.append_nil]
    rfl

/-- C7, as the code has it: a frame map whose `filename` is the string `f`,
whose `lineno` is the float64 of a non-negative integer `n` below 1000000 and
whose `method` is the string `m` appends exactly the line `f:n in m`, `n` in
decimal; so does a payload whose active trace has this frame alone. -/
theorem frame_line_below_million (frame : GoMap) (f m : String) (n : Nat)
    (hn : n < 1000000)
    (hf : frame.get "filename" = some (Value.str f))
    (hl : frame.get "lineno" = some (Value.num (Float64.int false n (by omega))))
    (hm : frame.get "method" = some (Value.str m)) :
    (∀ backtrace, frameStep backtrace (Value.obj frame) =
        backtrace ++ [f ++ ":" ++ toString n ++ " in " ++ m]) ∧
      ∀ data body t : GoMap, asMap (data.index "body") = some body →
        activeTrace body = some (Value.obj t) →
        asSlice (t.index "frames") = some [Value.obj frame] →
        ∃ summary, FormatOccurrenceData data = some summary ∧
          summary.get "backtrace" =
            some (Value.strs [f ++ ":" ++ toString n ++ " in " ++ m]) := by
  have hline : frameLine frame = f ++ ":" ++ toString n ++ " in " ++ m := by
    simp only [frameLine, Sprintf3, GoMap.index, hf, hl, hm, fmtV]
    rw [fmtFloat_small n hn]
  refine ⟨?_, ?_⟩
  · intro backtrace
    have := frameLoop_eq [Value.obj frame] backtrace
    simp only [frameLoop, List.filterMap_cons, asMap, List.filterMap_nil, List.map_cons,
      List.map_nil, hline] at this
    exact this
  · intro data body t hb ht hfr
    obtain ⟨r, hr, h⟩ := FormatOccurrenceData_eq data
    obtain ⟨prev, hp⟩ := extractBody_activeTrace data body t _ hb ht
    rw [hp] at hr
    simp only [Option.some.injEq] at hr
    subst hr
    refine ⟨_, h, ?_⟩
    rw [get_sections_other _ _ _ (by decide) (by decide), get_extractTrace]
    simp [hfr, frameLoop_eq, asMap, hline]

/-- C7 witness: the frame `{filename: "a.py", lineno: 10, method: "f"}` gives
the line `a.py:10 in f`. -/
theorem frame_line_below_million_witness :
    (10 < 1000000 ∧
      GoMap.get [("filename", Value.str "a.py"),
        ("lineno", Value.num (Float64.int false 10 (by decide))),
        ("method", Value.str "f")] "filename" = some (Value.str "a.py") ∧
      GoMap.get [("filename", Value.str "a.py"),
        ("lineno", Value.num (Float64.int false 10 (by decide))),
        ("method", Value.str "f")] "lineno" =
          some (Value.num (Float64.int false 10 (by decide))) ∧
      GoMap.get [("filename", Value.str "a.py"),
        ("lineno", Value.num (Float64.int false 10 (by decide))),
        ("method", Value.str "f")] "method" = some (Value.str "f")) ∧
    frameStep [] frameA = ["a.py:10 in f"] :=
  ⟨⟨by decide, rfl, rfl, rfl⟩,
    (frame_line_below_million
      [("filename", Value.str "a.py"), ("lineno", Value.num (Float64.int false 10 (by decide))),
        ("method", Value.str "f")] "a.py" "f" 10 (by decide) rfl rfl rfl).1 []⟩

/-- C7 fails as stated: the frame `{filename: "a.py", lineno: 1000000,
method: "f"}` gives the line `a.py:1e+06 in f`, which is not
`a.py:1000000 in f`. -/
theorem frame_line_million_is_exponent :
    frameStep [] frameMillion = ["a.py:1e+06 in f"] ∧
      frameStep [] frameMillion ≠ ["a.py" ++ ":" ++ toString 1000000 ++ " in " ++ "f"] :=
  ⟨rfl, by decide⟩

/-! ### The list functions -/

theorem itemsLoop_eq (timeFormat : Int → String) (limit : Int) (rest : List ItemResult)
    (i : Nat) (items : List Item) :
    itemsLoop timeFormat limit i rest items =
      items ++ (rest.take (limit - i).toNat).map (itemOf timeFormat) := by
  induction rest generalizing i items with
  | nil => simp [itemsLoop]
  | cons x xs ih =>
    rw [itemsLoop]
    by_cases h : (i : Int) ≥ limit
    · have h0 : (limit - (i : Int)).toNat = 0 := by omega
      simp [h, h0]
    · obtain ⟨k, hk⟩ : ∃ k, (limit - (i : Int)).toNat = k + 1 :=
        ⟨(limit - (i : Int)).toNat - 1, by omega⟩
      have hk' : (limit - ((i + 1 : Nat) : Int)).toNat = k := by omega
      rw [if_neg h, ih, hk', hk]
      simp

theorem occurrencesLoop_eq (timeFormat : Int → String) (limit : Int)
    (rest : List InstanceResult) (i : Nat) (occurrences : List Occurrence) :
    occurrencesLoop timeFormat limit i rest occurrences =
      occurrences ++ (rest.take (limit - i).toNat).map (occurrenceOf timeFormat) := by
  induction rest generalizing i occurrences with
  | nil => simp [occurrencesLoop]
  | cons x xs ih =>
    rw [occurrencesLoop]
    by_cases h : (i : Int) ≥ limit
    · have h0 : (limit - (i : Int)).toNat = 0 := by omega
      simp [h, h0]
    · obtain ⟨k, hk⟩ : ∃ k, (limit - (i : Int)).toNat = k + 1 :=
        ⟨(limit - (i : Int)).toNat - 1, by omega⟩
      have hk' : (limit - ((i + 1 : Nat) : Int)).toNat = k := by omega
      rw [if_neg h, ih, hk', hk]
      simp

/-- C5: for a decoded list response with error code 0 and a limit `n`,
`GetItems` and `GetOccurrences` return, without error, the conversions of the
first `min n m` of the `m` entries in the order received (none of them when
`n ≤ 0`). -/
theorem list_truncated_to_limit (timeFormat : Int → String) (limit : Int)
    (items : ItemsResponse) (occs : OccurrencesResponse)
    (hi : items.Err = 0) (ho : occs.Err = 0) :
    GetItems timeFormat limit (Except.ok items) =
        (some ((items.Items.take limit.toNat).map (itemOf timeFormat)), none) ∧
      GetOccurrences timeFormat limit (Except.ok occs) =
        (some ((occs.Instances.take limit.toNat).map (occurrenceOf timeFormat)), none) ∧
      ((items.Items.take limit.toNat).map (itemOf timeFormat)).length =
        min limit.toNat items.Items.length ∧
      ((occs.Instances.take limit.toNat).map (occurrenceOf timeFormat)).length =
        min limit.toNat occs.Instances.length := by
  refine ⟨?_, ?_, ?_, ?_⟩
  · simp [GetItems, hi, itemsLoop_eq]
  · simp [GetOccurrences, ho, occurrencesLoop_eq]
  · simp
  · simp

/-- C5 witness: 25 entries and the limit 10 give the entries 0 to 9 in order. -/
theorem list_truncated_to_limit_witness :
    (sampleItems.Err = 0 ∧ sampleInstances.Err = 0 ∧ sampleItems.Items.length = 25) ∧
      GetItems (fun ts => toString ts) 10 (Except.ok sampleItems) =
        (some ((sampleItems.Items.take (10 : Int).toNat).map
          (itemOf fun ts => toString ts)), none) ∧
      (sampleItems.Items.take (10 : Int).toNat).map (fun r => r.ID) =
        ["0", "1", "2", "3", "4", "5", "6", "7", "8", "9"] :=
  ⟨⟨rfl, rfl, rfl⟩,
    (list_truncated_to_limit (fun ts => toString ts) 10 sampleItems sampleInstances
      rfl rfl).1,
    by decide⟩

/-- C6: for each of `GetItems`, `GetItem`, `GetOccurrences` and
`GetOccurrence`, on a decoded response with error code `N` the call returns
an error exactly when `N ≠ 0`, and then the result is nil and the error is
`API returned error code: N`. -/
theorem api_error_code_surfaced (timeFormat : Int → String) (limit : Int)
    (items : ItemsResponse) (item : ItemResponse)
    (occs : OccurrencesResponse) (occ : OccurrenceResponse) :
    (((GetItems timeFormat limit (Except.ok items)).2.isSome = true ↔ items.Err ≠ 0) ∧
      (items.Err ≠ 0 → GetItems timeFormat limit (Except.ok items) =
        (none, some ("API returned error code: " ++ toString items.Err)))) ∧
    (((GetItem timeFormat (Except.ok item)).2.isSome = true ↔ item.Err ≠ 0) ∧
      (item.Err ≠ 0 → GetItem timeFormat (Except.ok item) =
        (none, some ("API returned error code: " ++ toString item.Err)))) ∧
    (((GetOccurrences timeFormat limit (Except.ok occs)).2.isSome = true ↔ occs.Err ≠ 0) ∧
      (occs.Err ≠ 0 → GetOccurrences timeFormat limit (Except.ok occs) =
        (none, some ("API returned error code: " ++ toString occs.Err)))) ∧
    (((GetOccurrence timeFormat (Except.ok occ)).2.isSome = true ↔ occ.Err ≠ 0) ∧
      (occ.Err ≠ 0 → GetOccurrence timeFormat (Except.ok occ) =
        (none, some ("API returned error code: " ++ toString occ.Err)))) := by
  refine ⟨⟨?_, ?_⟩, ⟨?_, ?_⟩, ⟨?_, ?_⟩, ⟨?_, ?_⟩⟩
  · by_cases h : items.Err = 0 <;> simp [GetItems, h]
  · intro h; simp [GetItems, h, apiError]
  · by_cases h : item.Err = 0 <;> simp [GetItem, h]
  · intro h; simp [GetItem, h, apiError]
  · by_cases h : occs.Err = 0 <;> simp [GetOccurrences, h]
  · intro h; simp [GetOccurrences, h, apiError]
  · by_cases h : occ.Err = 0 <;> simp [GetOccurrence, h]
  · intro h; simp [GetOccurrence, h, apiError]

/-- C6 witness: the response `{err: 1, result: {}}` makes `GetItem` return
nil and the error `API returned error code: 1`. -/
theorem api_error_code_surfaced_witness :
    GetItem (fun ts => toString ts) (Except.ok { Err := 1, Result := sampleItem 0 }) =
      (none, some "API returned error code: 1") :=
  (api_error_code_surfaced (fun ts => toString ts) 10 sampleItems
    { Err := 1, Result := sampleItem 0 } sampleInstances
    { Err := 1, Result := sampleInstance 0 }).2.1.2 (by decide)

/-- C8: an identifier that arrives as a JSON number of text `s` and one that
arrives as a JSON string of the same content `s` both decode, to the same
`json.Number`, and the identifier of the item or occurrence is `s` in both. -/
theorem identifier_number_or_string (s old : String) (hs : isValidNumber s = true) :
    decodeNumber old (Literal.number s) = Except.ok s ∧
      decodeNumber old (Literal.string s) = Except.ok s ∧
      Number.String s = s ∧
      (∀ (timeFormat : Int → String) (r : ItemResult), r.ID = s →
        (itemOf timeFormat r).ID = s) ∧
      (∀ (timeFormat : Int → String) (r : InstanceResult), r.ItemID = s →
        (occurrenceOf timeFormat r).ItemID = s) := by
  refine ⟨rfl, ?_, rfl, ?_, ?_⟩
  · simp [decodeNumber, hs]
  · intro tf r h; simp [itemOf, Number.String, h]
  · intro tf r h; simp [occurrenceOf, Number.String, h]

/-- C8 witness: the number `12345` and the string `"12345"` both give `12345`. -/
theorem identifier_number_or_string_witness :
    isValidNumber "12345" = true ∧
      decodeNumber "" (Literal.number "12345") = Except.ok "12345" ∧
      decodeNumber "" (Literal.string "12345") = Except.ok "12345" :=
  ⟨by decide,
    (identifier_number_or_string "12345" "" (by decide)).1,
    (identifier_number_or_string "12345" "" (by decide)).2.1⟩

end Rollbar
